import Mathlib

/-!
Verification development for the batch ingestion-and-aggregation pipeline
(`utils.py`, `ingestion.py`, `aggregate.py`).

The relational sink is modelled as an association list from table names to
tables; a table is its column/type schema plus its rows (all cells are text,
since ingestion loads everything as strings).  CSV files are modelled as the
list of their parsed lines (first line = header); a zero-byte file is the
empty list.  SQL `DECIMAL(18,2)` values are modelled exactly as integers
scaled by 100 (cents), which is the fixed-point semantics of that type;
`BIGINT` values as integers.  SQL `NULL` is `Option.none`.
-/

/-- Python `str.strip` on a list of characters: drops whitespace at both ends. -/
def pyStrip (cs : List Char) : List Char :=
  ((cs.dropWhile Char.isWhitespace).reverse.dropWhile Char.isWhitespace).reverse

/-- Column-name sanitisation used by both loaders:
`col.strip().replace(" ", "_")`. -/
def sanitize (s : String) : String :=
  String.mk ((pyStrip s.data).map fun c => if c = ' ' then '_' else c)

/-- A staging table: its column/type schema and its rows (all cells text). -/
structure Table where
  schema : List (String × String)
  rows : List (List String)
deriving DecidableEq

/-- The relational store: an association list from table names to tables. -/
abbrev DBState := List (String × Table)

/-- Look a table up by name. -/
def lookupTable (n : String) (db : DBState) : Option Table :=
  (db.find? fun e => decide (e.1 = n)).map fun e => e.2

/-- Effect of `IF OBJECT_ID(...) IS NOT NULL DROP TABLE ...`. -/
def dropTableIfExists (n : String) (db : DBState) : DBState :=
  db.filter fun e => !decide (e.1 = n)

/-- The default wide-text column type used when no type list is supplied. -/
def defaultColType : String := "VARCHAR(MAX) NULL"

/-- Model of `utils.ensure_table`: drop the table if it exists, then create it
with the column definitions built by `zip(columns, column_types)` (Python
`zip`, which silently truncates to the shorter list). -/
def ensure_table (db : DBState) (tableName : String) (columns : List String)
    (columnTypes : Option (List String)) : DBState :=
  let types := columnTypes.getD (List.replicate columns.length defaultColType)
  (tableName, ⟨columns.zip types, []⟩) :: dropTableIfExists tableName db

/-- Effect of one batched `INSERT INTO n ... VALUES ...` at the sink: append
the rows to the named table (no-op if the table does not exist). -/
def insertRows (n : String) (newRows : List (List String)) (db : DBState) : DBState :=
  db.map fun e =>
    if decide (e.1 = n) then (e.1, ⟨e.2.schema, e.2.rows ++ newRows⟩) else e

/-- A CSV file as its parsed lines; the first line is the header.  The empty
list is a zero-byte file (`os.path.getsize(...) == 0`). -/
abbrev CsvFile := List (List String)

/-- `IngestionConfig.CHUNK_SIZE`. -/
def CHUNK_SIZE : Nat := 10000

/-- Structural worker for `chunked`; `fuel` bounds the recursion depth and is
always sufficient when called with `fuel = xs.length`. -/
def chunkedAux (fuel : Nat) (n : Nat) (xs : List α) : List (List α) :=
  match fuel with
  | 0 => if xs.isEmpty then [] else [xs]
  | fuel + 1 =>
    if xs.isEmpty then []
    else if n = 0 then [xs]
    else xs.take n :: chunkedAux fuel n (xs.drop n)

/-- Split a list into consecutive chunks of size `n` (the last one may be
shorter), as `pandas.read_csv(..., chunksize=n)` yields them. -/
def chunked (n : Nat) (xs : List α) : List (List α) :=
  chunkedAux xs.length n xs

theorem chunkedAux_flatten (fuel : Nat) :
    ∀ (n : Nat) (xs : List α), xs.length ≤ fuel → (chunkedAux fuel n xs).flatten = xs := by
  induction fuel with
  | zero =>
    intro n xs h
    have : xs = [] := List.eq_nil_of_length_eq_zero (Nat.le_zero.mp h)
    subst this
    rfl
  | succ fuel ih =>
    intro n xs h
    by_cases hxs : xs.isEmpty
    · have : xs = [] := by simpa using hxs
      subst this
      rfl
    · by_cases hn : n = 0
      · simp [chunkedAux, hxs, hn]
      · have hlen : (xs.drop n).length ≤ fuel := by
          have h1 : xs ≠ [] := by simpa using hxs
          have h2 : 0 < xs.length := List.length_pos.mpr h1
          simp only [List.length_drop]
          omega
        simp [chunkedAux, hxs, hn, ih n (xs.drop n) hlen]

theorem chunked_flatten (n : Nat) (xs : List α) : (chunked n xs).flatten = xs :=
  chunkedAux_flatten xs.length n xs le_rfl

/-- Error raised by `pandas.read_csv` on a file with no columns to parse
(in particular a zero-byte file). -/
inductive PdError where
  | emptyDataError
deriving DecidableEq

/-- Model of `ingestion.ingest_table_from_csv` (the non-recursive,
multi-folder flow).  Returns the new store and a flag that is `true` exactly
when the file was skipped with the "Skipping empty file" warning.  The table
name is `os.path.splitext(fname)[0]`, taken here as a parameter computed by
`splitextStem`. -/
def ingest_table_from_csv (tableName : String) (f : CsvFile)
    (columnTypes : Option (List String)) (db : DBState) : DBState × Bool :=
  match f with
  | [] => (db, true)
  | header :: dataRows =>
    let columns := header.map sanitize
    let db1 := ensure_table db tableName columns columnTypes
    ((chunked CHUNK_SIZE dataRows).foldl (fun d c => insertRows tableName c d) db1, false)

/-- Model of `utils.ingest_file` (used by the recursive single-folder flow).
It reads the header with `pd.read_csv(file_path, nrows=0)`, which raises
`EmptyDataError` on a zero-byte file: there is no size guard in this flow. -/
def ingest_file (tableName : String) (f : CsvFile)
    (columnTypes : Option (List String)) (db : DBState) : Except PdError DBState :=
  match f with
  | [] => .error PdError.emptyDataError
  | header :: dataRows =>
    let columns := header.map sanitize
    let db1 := ensure_table db tableName columns columnTypes
    .ok ((chunked CHUNK_SIZE dataRows).foldl (fun d c => insertRows tableName c d) db1)

/-- Index of the last occurrence of a character in a list, if any. -/
def lastIdxOf (c : Char) (cs : List Char) : Option Nat :=
  ((List.range cs.length).filter fun i => decide (cs.get? i = some c)).getLast?

/-- Model of `os.path.splitext(p)[0]` (posix): the extension starts at the
last dot, provided it lies in the last path component and the part of that
component before it is not made of dots only. -/
def splitextStem (p : String) : String :=
  let cs := p.data
  match lastIdxOf '.' cs with
  | none => p
  | some d =>
    let start := match lastIdxOf '/' cs with
      | none => 0
      | some s1 => s1 + 1
    if start ≤ d ∧
        ((List.range d).any fun k => decide (start ≤ k) && !decide (cs.get? k = some '.')) then
      String.mk (cs.take d)
    else p

/-- The last path component, as in `pathlib.PurePath.name`. -/
def lastComponent (p : String) : String :=
  String.mk ((p.data.reverse.takeWhile fun c => !decide (c = '/')).reverse)

/-- Model of `pathlib.PurePath.stem`: the final component without its last
suffix; a dot that is leading or trailing in the name does not start a
suffix. -/
def pathStem (p : String) : String :=
  let nm := lastComponent p
  let cs := nm.data
  match lastIdxOf '.' cs with
  | none => nm
  | some i => if 0 < i ∧ i < cs.length - 1 then String.mk (cs.take i) else nm

/-- Byte-wise (code-point) lexicographic string order, as Python compares
`Path` objects (they compare by their string form). -/
def strLeChars : List Char → List Char → Bool
  | [], _ => true
  | _ :: _, [] => false
  | a :: as, b :: bs =>
    if a.toNat < b.toNat then true
    else if b.toNat < a.toNat then false
    else strLeChars as bs

/-- The order files are visited in: Python `sorted` on paths. -/
def pathLe (a b : String) : Prop := strLeChars a.data b.data = true

instance : DecidableRel pathLe := fun a b => by unfold pathLe; infer_instance

/-- Suffix test used to model both the `*{ext}` glob of `list_csv_files` and
the `endswith` filter of `ingest_folder`. -/
def strEndsWith (p ext : String) : Bool :=
  decide (p.data.reverse.take ext.data.length = ext.data.reverse)

/-- Python `str.lower`. -/
def strToLower (s : String) : String := String.mk (s.data.map Char.toLower)

/-- Model of `utils.list_csv_files`: all paths matching `*.csv` (recursively),
sorted. -/
def list_csv_files (paths : List String) : List String :=
  List.insertionSort pathLe (paths.filter fun p => strEndsWith p ".csv")

/-- Model of `utils.ingest_all` (recursive single-folder flow): ingest every
discovered CSV, in sorted order, into the table named by the file's stem.
An error from `ingest_file` aborts the run. -/
def ingest_all (paths : List String) (files : String → CsvFile)
    (columnTypes : Option (List String)) (db : DBState) : Except PdError DBState :=
  (list_csv_files paths).foldlM (fun d p => ingest_file (pathStem p) (files p) columnTypes d) db

/-- Model of `ingestion.ingest_folder`: ingest every file in the folder whose
lower-cased name ends with `.csv`, in listing order. -/
def ingest_folder (fnames : List String) (files : String → CsvFile)
    (columnTypes : Option (List String)) (db : DBState) : DBState :=
  (fnames.filter fun n => strEndsWith (strToLower n) ".csv").foldl
    (fun d n => (ingest_table_from_csv (splitextStem n) (files n) columnTypes d).1) db

/-- Model of the ingestion part of `ingestion.main`: ingest each configured
folder in turn (the subsequent aggregation stage is modelled separately). -/
def ingestMain (folders : List (List String)) (files : String → CsvFile)
    (columnTypes : Option (List String)) (db : DBState) : DBState :=
  folders.foldl (fun d fl => ingest_folder fl files columnTypes d) db

theorem find?_filter_ne (es : DBState) (nm tbl : String) (h : ¬nm = tbl) :
    List.find? (fun e => decide (e.1 = tbl)) (es.filter fun e => !decide (e.1 = nm)) =
      List.find? (fun e => decide (e.1 = tbl)) es := by
  induction es with
  | nil => rfl
  | cons e es ih =>
    by_cases hn : e.1 = nm
    · have htbl : ¬e.1 = tbl := by rw [hn]; exact h
      rw [List.filter_cons, if_neg (by simp [hn]), ih,
        List.find?_cons_of_neg _ (by simp [htbl])]
    · rw [List.filter_cons, if_pos (by simp [hn])]
      by_cases htbl : e.1 = tbl
      · rw [List.find?_cons_of_pos _ (by simp [htbl]), List.find?_cons_of_pos _ (by simp [htbl])]
      · rw [List.find?_cons_of_neg _ (by simp [htbl]), List.find?_cons_of_neg _ (by simp [htbl]), ih]

theorem lookup_ensure_table (db : DBState) (nm : String) (cols : List String)
    (ct : Option (List String)) (tbl : String) :
    lookupTable tbl (ensure_table db nm cols ct) =
      if nm = tbl then
        some ⟨cols.zip (ct.getD (List.replicate cols.length defaultColType)), []⟩
      else lookupTable tbl db := by
  unfold ensure_table lookupTable dropTableIfExists
  by_cases h : nm = tbl
  · rw [List.find?_cons_of_pos _ (by simp [h])]
    simp [h]
  · rw [List.find?_cons_of_neg _ (by simp [h])]
    simp only [h, if_false]
    rw [find?_filter_ne _ _ _ h]

theorem lookup_insertRows (db : DBState) (nm : String) (rs : List (List String)) (tbl : String) :
    lookupTable tbl (insertRows nm rs db) =
      if nm = tbl then (lookupTable tbl db).map fun t => ⟨t.schema, t.rows ++ rs⟩
      else lookupTable tbl db := by
  unfold insertRows lookupTable
  induction db with
  | nil => simp
  | cons e es ih =>
    simp only [List.map_cons]
    by_cases hn : e.1 = nm
    · rw [if_pos (by simp [hn])]
      by_cases h : nm = tbl
      · have htbl : e.1 = tbl := hn.trans h
        rw [List.find?_cons_of_pos _ (by simp [htbl]), List.find?_cons_of_pos _ (by simp [htbl]),
          if_pos h]
        simp
      · have htbl : ¬e.1 = tbl := by rw [hn]; exact h
        rw [List.find?_cons_of_neg _ (by simp [htbl]), List.find?_cons_of_neg _ (by simp [htbl])]
        simp only [h, if_false] at ih ⊢
        exact ih
    · rw [if_neg (by simp [hn])]
      by_cases htbl : e.1 = tbl
      · have h : ¬nm = tbl := by intro hc; exact hn (htbl.trans hc.symm)
        rw [List.find?_cons_of_pos _ (by simp [htbl]), List.find?_cons_of_pos _ (by simp [htbl]),
          if_neg h]
      · rw [List.find?_cons_of_neg _ (by simp [htbl]), List.find?_cons_of_neg _ (by simp [htbl])]
        exact ih


theorem lookup_insert_fold (chunks : List (List (List String))) (nm : String)
    (db : DBState) (tbl : String) :
    lookupTable tbl (chunks.foldl (fun d c => insertRows nm c d) db) =
      if nm = tbl then (lookupTable tbl db).map fun t => ⟨t.schema, t.rows ++ chunks.flatten⟩
      else lookupTable tbl db := by
  induction chunks generalizing db with
  | nil =>
    by_cases h : nm = tbl
    · simp [h]
    · simp [h]
  | cons c cs ih =>
    simp only [List.foldl_cons, ih, lookup_insertRows]
    by_cases h : nm = tbl
    · simp [h]
      cases lookupTable tbl db <;> simp
    · simp [h]

/-- The table content an ingested (non-empty) file produces: sanitised header
zipped with the types, and all data rows. -/
def fileTable (f : CsvFile) (ct : Option (List String)) : Table :=
  match f with
  | [] => ⟨[], []⟩
  | header :: dataRows =>
    ⟨(header.map sanitize).zip
        (ct.getD (List.replicate (header.map sanitize).length defaultColType)), dataRows⟩

theorem lookup_ingest_table_from_csv (nm : String) (f : CsvFile)
    (ct : Option (List String)) (db : DBState) (tbl : String) :
    lookupTable tbl (ingest_table_from_csv nm f ct db).1 =
      if f ≠ [] ∧ nm = tbl then some (fileTable f ct) else lookupTable tbl db := by
  match f with
  | [] => simp [ingest_table_from_csv]
  | header :: dataRows =>
    simp only [ingest_table_from_csv, lookup_insert_fold, lookup_ensure_table, fileTable]
    by_cases h : nm = tbl
    · simp [h, chunked_flatten]
    · simp [h]

theorem lookup_ingest_file (nm : String) (f : CsvFile) (ct : Option (List String))
    (db db' : DBState) (tbl : String) (h : ingest_file nm f ct db = .ok db') :
    f ≠ [] ∧
      (lookupTable tbl db' =
        if nm = tbl then some (fileTable f ct) else lookupTable tbl db) := by
  match f with
  | [] => simp [ingest_file] at h
  | header :: dataRows =>
    simp only [ingest_file, Except.ok.injEq] at h
    subst h
    refine ⟨by simp, ?_⟩
    simp only [lookup_insert_fold, lookup_ensure_table, fileTable]
    by_cases h : nm = tbl
    · simp [h, chunked_flatten]
    · simp [h]

/-- The sequence of file names the multi-folder flow processes: each folder's
listing filtered by the case-insensitive `.csv` suffix test, in order. -/
def procNames (folders : List (List String)) : List String :=
  (folders.map fun fl => fl.filter fun n => strEndsWith (strToLower n) ".csv").flatten

/-- The content the last (non-empty) file among `ns` targeting table `tbl`
writes in the multi-folder flow, if any. -/
def lastWriteF (files : String → CsvFile) (ct : Option (List String)) :
    List String → String → Option Table
  | [], _ => none
  | n :: ns, tbl =>
    match lastWriteF files ct ns tbl with
    | some t => some t
    | none =>
      if files n ≠ [] ∧ splitextStem n = tbl then some (fileTable (files n) ct) else none

theorem lookup_folderStep_fold (files : String → CsvFile) (ct : Option (List String)) :
    ∀ (ns : List String) (db : DBState) (tbl : String),
      lookupTable tbl
          (ns.foldl (fun d n => (ingest_table_from_csv (splitextStem n) (files n) ct d).1) db) =
        match lastWriteF files ct ns tbl with
        | some t => some t
        | none => lookupTable tbl db := by
  intro ns
  induction ns with
  | nil => intro db tbl; rfl
  | cons n ns ih =>
    intro db tbl
    rw [List.foldl_cons, ih]
    cases hlast : lastWriteF files ct ns tbl with
    | some t => simp [lastWriteF, hlast]
    | none =>
      simp only [lastWriteF, hlast]
      rw [lookup_ingest_table_from_csv]
      by_cases hc : files n ≠ [] ∧ splitextStem n = tbl
      · simp [hc]
      · simp [hc]

theorem ingestMain_eq_fold (folders : List (List String)) (files : String → CsvFile)
    (ct : Option (List String)) (db : DBState) :
    ingestMain folders files ct db =
      (procNames folders).foldl
        (fun d n => (ingest_table_from_csv (splitextStem n) (files n) ct d).1) db := by
  induction folders generalizing db with
  | nil => rfl
  | cons fl fls ih =>
    rw [show procNames (fl :: fls) =
        (fl.filter fun n => strEndsWith (strToLower n) ".csv") ++ procNames fls from rfl,
      List.foldl_append]
    show ingestMain fls files ct (ingest_folder fl files ct db) = _
    rw [ih]
    rfl

/-- C7: running the multi-folder ingestion twice on the same input set leaves
every staging table with the same content (hence the same row count) as after
one run: each load drops and recreates its table, so the second run replaces
rather than appends. -/
theorem c7_ingestion_idempotent (folders : List (List String)) (files : String → CsvFile)
    (db : DBState) (tbl : String) :
    lookupTable tbl (ingestMain folders files none (ingestMain folders files none db)) =
      lookupTable tbl (ingestMain folders files none db) := by
  rw [ingestMain_eq_fold, ingestMain_eq_fold, lookup_folderStep_fold]
  cases hlast : lastWriteF files none (procNames folders) tbl with
  | some t => rw [lookup_folderStep_fold, hlast]
  | none => rfl

/-- C1 counterexample: called with a 2-column list and a 1-type list,
`ensure_table` does not fail; it creates the table with the zipped
(silently truncated) schema. -/
theorem c1_counterexample :
    (["a", "b"].length ≠ ["INT NULL"].length) ∧
      lookupTable "t" (ensure_table [] "t" ["a", "b"] (some ["INT NULL"])) =
        some ⟨[("a", "INT NULL")], []⟩ := by
  constructor
  · decide
  · rfl

/-- C1 amended: `ensure_table` never validates the lengths; it always drops
any existing table and creates one whose schema is `columns.zip types`,
silently truncated to the shorter of the two lists. -/
theorem c1_amended (db : DBState) (nm : String) (cols types : List String) :
    lookupTable nm (ensure_table db nm cols (some types)) = some ⟨cols.zip types, []⟩ ∧
      (cols.zip types).length = min cols.length types.length := by
  constructor
  · rw [lookup_ensure_table, if_pos rfl]
    rfl
  · exact List.length_zip cols types

/-- C2 counterexample: in the recursive single-folder flow, loading a
zero-byte file is not a warning no-op; `pd.read_csv` raises
`EmptyDataError`. -/
theorem c2_counterexample :
    ingest_file "t" [] none [] = .error PdError.emptyDataError := rfl

/-- C2 amended: a zero-byte file is skipped with a warning (and the store is
untouched) only in the non-recursive multi-folder flow; the recursive
single-folder flow raises `EmptyDataError` on it (before touching any
table). -/
theorem c2_amended (nm1 nm2 : String) (ct1 ct2 : Option (List String)) (db1 db2 : DBState) :
    ingest_table_from_csv nm1 [] ct1 db1 = (db1, true) ∧
      ingest_file nm2 [] ct2 db2 = .error PdError.emptyDataError := ⟨rfl, rfl⟩

/-- The content the last file among `ns` targeting table `tbl` writes in the
recursive single-folder flow (where every processed file writes), if any. -/
def lastWriteU (files : String → CsvFile) (ct : Option (List String)) :
    List String → String → Option Table
  | [], _ => none
  | n :: ns, tbl =>
    match lastWriteU files ct ns tbl with
    | some t => some t
    | none => if pathStem n = tbl then some (fileTable (files n) ct) else none

theorem foldlM_ingest_ok (files : String → CsvFile) (ct : Option (List String)) :
    ∀ (ns : List String) (db db' : DBState),
      ns.foldlM (fun d p => ingest_file (pathStem p) (files p) ct d) db = .ok db' →
      ∀ tbl,
        lookupTable tbl db' =
          match lastWriteU files ct ns tbl with
          | some t => some t
          | none => lookupTable tbl db := by
  intro ns
  induction ns with
  | nil =>
    intro db db' h tbl
    simp only [List.foldlM_nil, pure, Except.pure] at h
    cases h
    rfl
  | cons n ns ih =>
    intro db db' h tbl
    rw [List.foldlM_cons] at h
    cases hstep : ingest_file (pathStem n) (files n) ct db with
    | error e => rw [hstep] at h; simp [bind, Except.bind] at h
    | ok db1 =>
      rw [hstep] at h
      simp only [bind, Except.bind] at h
      have hlook := (lookup_ingest_file _ _ _ _ _ tbl hstep).2
      rw [ih db1 db' h tbl]
      cases hlast : lastWriteU files ct ns tbl with
      | some t => simp [lastWriteU, hlast]
      | none =>
        simp only [lastWriteU, hlast]
        rw [hlook]
        by_cases hc : pathStem n = tbl
        · simp [hc]
        · simp [hc]

theorem lastWriteU_append (files : String → CsvFile) (ct : Option (List String))
    (l1 l2 : List String) (tbl : String) :
    lastWriteU files ct (l1 ++ l2) tbl =
      match lastWriteU files ct l2 tbl with
      | some t => some t
      | none => lastWriteU files ct l1 tbl := by
  induction l1 with
  | nil =>
    simp only [List.nil_append]
    cases lastWriteU files ct l2 tbl <;> rfl
  | cons n ns ih =>
    simp only [List.cons_append, lastWriteU]
    rw [show ns.append l2 = ns ++ l2 from rfl, ih]
    cases lastWriteU files ct l2 tbl <;> cases lastWriteU files ct ns tbl <;> rfl

theorem lastWriteU_none_of_no_stem (files : String → CsvFile) (ct : Option (List String))
    (l : List String) (tbl : String) (h : ∀ q ∈ l, pathStem q ≠ tbl) :
    lastWriteU files ct l tbl = none := by
  induction l with
  | nil => rfl
  | cons n ns ih =>
    have hn := h n (by simp)
    have hns : ∀ q ∈ ns, pathStem q ≠ tbl := fun q hq => h q (by simp [hq])
    simp [lastWriteU, ih hns, hn]

theorem strLeChars_total : ∀ (a b : List Char), strLeChars a b = true ∨ strLeChars b a = true := by
  intro a
  induction a with
  | nil => intro b; left; rfl
  | cons x xs ih =>
    intro b
    match b with
    | [] => right; rfl
    | y :: ys =>
      simp only [strLeChars]
      by_cases h1 : x.toNat < y.toNat
      · left; simp [h1]
      · by_cases h2 : y.toNat < x.toNat
        · right; simp [h2]
        · rcases ih ys with h | h
          · left; simp [h1, h2, h]
          · right; simp [h1, h2, h]

theorem strLeChars_trans : ∀ (a b c : List Char),
    strLeChars a b = true → strLeChars b c = true → strLeChars a c = true := by
  intro a
  induction a with
  | nil => intro b c _ _; rfl
  | cons x xs ih =>
    intro b c hab hbc
    match b, c with
    | [], _ => simp [strLeChars] at hab
    | _ :: _, [] => simp [strLeChars] at hbc
    | y :: ys, z :: zs =>
      simp only [strLeChars] at hab hbc ⊢
      by_cases h1 : x.toNat < y.toNat
      · by_cases h2 : y.toNat < z.toNat
        · have h3 : x.toNat < z.toNat := Nat.lt_trans h1 h2
          simp [h3]
        · rw [if_neg h2] at hbc
          by_cases h4 : z.toNat < y.toNat
          · rw [if_pos h4] at hbc; exact absurd hbc (by simp)
          · have h3 : x.toNat < z.toNat := by omega
            simp [h3]
      · rw [if_neg h1] at hab
        by_cases h4 : y.toNat < x.toNat
        · rw [if_pos h4] at hab; exact absurd hab (by simp)
        · rw [if_neg h4] at hab
          by_cases h2 : y.toNat < z.toNat
          · have h3 : x.toNat < z.toNat := by omega
            simp [h3]
          · rw [if_neg h2] at hbc
            by_cases h5 : z.toNat < y.toNat
            · rw [if_pos h5] at hbc; exact absurd hbc (by simp)
            · rw [if_neg h5] at hbc
              have h3 : ¬x.toNat < z.toNat := by omega
              have h6 : ¬z.toNat < x.toNat := by omega
              rw [if_neg h3, if_neg h6]
              exact ih ys zs hab hbc

instance : IsTotal String pathLe := ⟨fun a b => strLeChars_total a.data b.data⟩

instance : IsTrans String pathLe := ⟨fun a b c => strLeChars_trans a.data b.data c.data⟩

/-- C10: in the recursive single-folder flow the discovered files are visited
in sorted path order, each file's target table is its stem (base name with
the extension stripped), and when an earlier file and a later file share a
stem, the finished run leaves that table holding exactly the later file's
content — the earlier file's rows were destroyed by the drop-and-recreate
step. -/
theorem c10_stem_collision (paths : List String) (files : String → CsvFile) (db db' : DBState)
    (h : ingest_all paths files none db = .ok db') :
    (list_csv_files paths).Sorted pathLe ∧
      ∀ (l1 l2 l3 : List String) (p1 p2 : String),
        list_csv_files paths = l1 ++ p1 :: (l2 ++ p2 :: l3) →
        pathStem p1 = pathStem p2 →
        (∀ q ∈ l3, pathStem q ≠ pathStem p2) →
        lookupTable (pathStem p2) db' = some (fileTable (files p2) none) := by
  constructor
  · exact List.sorted_insertionSort pathLe _
  · intro l1 l2 l3 p1 p2 hsplit hstem hlater
    have hchar := foldlM_ingest_ok files none (list_csv_files paths) db db' h (pathStem p2)
    rw [hsplit] at hchar
    rw [lastWriteU_append] at hchar
    simp only [lastWriteU] at hchar
    rw [lastWriteU_append] at hchar
    simp only [lastWriteU] at hchar
    rw [lastWriteU_none_of_no_stem files none l3 (pathStem p2) hlater] at hchar
    simp only [if_pos rfl] at hchar
    exact hchar

/-- Concrete file system for the C10 witness: two CSV files in different
subfolders sharing the base name `t`. -/
def filesW : String → CsvFile := fun p =>
  if p = "a/t.csv" then [["col a"], ["1"]]
  else if p = "b/t.csv" then [["col a"], ["2"], ["3"]]
  else []

instance {ε α : Type} [DecidableEq ε] [DecidableEq α] : DecidableEq (Except ε α) := fun a b =>
  match a, b with
  | .ok x, .ok y =>
    if h : x = y then isTrue (by rw [h]) else isFalse fun hc => h (Except.ok.inj hc)
  | .error x, .error y =>
    if h : x = y then isTrue (by rw [h]) else isFalse fun hc => h (Except.error.inj hc)
  | .ok _, .error _ => isFalse fun hc => Except.noConfusion hc
  | .error _, .ok _ => isFalse fun hc => Except.noConfusion hc

/-- Witness for C10: with `a/t.csv` and `b/t.csv` both present, after the run
the table `t` holds exactly the rows of the later-sorted file `b/t.csv`. -/
theorem c10_stem_collision_witness :
    lookupTable "t" [("t", ⟨[("col_a", "VARCHAR(MAX) NULL")], [["2"], ["3"]]⟩)] =
      some (fileTable (filesW "b/t.csv") none) :=
  (c10_stem_collision ["b/t.csv", "a/t.csv", "notes.txt"] filesW []
      [("t", ⟨[("col_a", "VARCHAR(MAX) NULL")], [["2"], ["3"]]⟩)] (by decide)).2
    [] [] [] "a/t.csv" "b/t.csv" (by decide) (by decide) (by intro q hq; cases hq)

/-- Events observable at the connection during one use of the
`get_db_connection` scope. -/
inductive ConnEvent where
  | connect
  | openCursor
  | commit
  | closeCursor
  | closeConn
deriving DecidableEq

/-- Python `try ... finally`: the finaliser's events happen on every exit
path, and the body's outcome (value or exception) is preserved. -/
def tryFinallyTrace {ε : Type} (body : List ConnEvent × Except ε Unit)
    (finaliser : List ConnEvent) : List ConnEvent × Except ε Unit :=
  (body.1 ++ finaliser, body.2)

/-- The part of `get_db_connection` guarded by `try`: run the caller's body
(abstracted to its outcome); if it returns normally and `autocommit` is off,
commit; if it raises, the exception propagates past the commit. -/
def scopedYield {ε : Type} (autocommit : Bool) (body : Except ε Unit) :
    List ConnEvent × Except ε Unit :=
  match body with
  | .ok _ => ((if autocommit then [] else [ConnEvent.commit]), .ok ())
  | .error e => ([], .error e)

/-- Model of `utils.get_db_connection`: connect and open a cursor, yield to
the body, commit only on normal completion with `autocommit` off, and close
cursor and connection in a `finally` block. -/
def get_db_connection {ε : Type} (autocommit : Bool) (body : Except ε Unit) :
    List ConnEvent × Except ε Unit :=
  let inner := scopedYield autocommit body
  tryFinallyTrace ([ConnEvent.connect, ConnEvent.openCursor] ++ inner.1, inner.2)
    [ConnEvent.closeCursor, ConnEvent.closeConn]

/-- C9: with autocommit disabled, the scope issues a commit if and only if
the body completed without an exception; the cursor and the connection are
closed on every exit path; and the body's outcome is passed through
(exceptions propagate). -/
theorem c9_connection_scope {ε : Type} (body : Except ε Unit) :
    (ConnEvent.commit ∈ (get_db_connection false body).1 ↔ body = .ok ()) ∧
      ConnEvent.closeCursor ∈ (get_db_connection false body).1 ∧
      ConnEvent.closeConn ∈ (get_db_connection false body).1 ∧
      (get_db_connection false body).2 = body := by
  cases body with
  | ok u =>
    cases u
    refine ⟨⟨fun _ => rfl, fun _ => ?_⟩, ?_, ?_, rfl⟩ <;>
      simp [get_db_connection, tryFinallyTrace, scopedYield]
  | error e =>
    refine ⟨⟨fun hmem => ?_, fun hok => ?_⟩, ?_, ?_, rfl⟩
    · simp [get_db_connection, tryFinallyTrace, scopedYield] at hmem
    · cases hok
    · simp [get_db_connection, tryFinallyTrace, scopedYield]
    · simp [get_db_connection, tryFinallyTrace, scopedYield]

/-- Numeric value of a list of decimal digit characters. -/
def digitsToNat (cs : List Char) : Nat :=
  cs.foldl (fun a c => a * 10 + (c.toNat - 48)) 0

/-- True when every character is a decimal digit. -/
def allDigits (cs : List Char) : Bool := cs.all Char.isDigit

/-- SQL Server trims spaces around a character string before a numeric cast. -/
def trimSpaces (cs : List Char) : List Char :=
  ((cs.dropWhile fun c => decide (c = ' ')).reverse.dropWhile fun c => decide (c = ' ')).reverse

/-- Optional leading sign of a numeric literal. -/
def splitSign : List Char → Int × List Char
  | '-' :: t => (-1, t)
  | '+' :: t => (1, t)
  | t => (1, t)

/-- Model of `TRY_CAST(s AS BIGINT)` on a `VARCHAR` value: `NULL` on anything
that is not an optionally-signed run of digits within the 64-bit range
(`1.5`, `abc`, `5 5`, out-of-range values all fail); SQL Server converts the
empty / all-space string to `0` for integer types. -/
def tryCastBigint (s : String) : Option Int :=
  let cs := trimSpaces s.data
  if cs.isEmpty then some 0
  else
    let sg := splitSign cs
    if !sg.2.isEmpty && allDigits sg.2 then
      let v : Int := sg.1 * (digitsToNat sg.2 : Int)
      if -(2 ^ 63) ≤ v ∧ v ≤ 2 ^ 63 - 1 then some v else none
    else none

/-- Model of `TRY_CAST(s AS DECIMAL(18,2))` on a `VARCHAR` value, returning
the value in cents (scaled by 100): `NULL` unless the trimmed string is an
optionally-signed decimal literal with at least one digit; extra fractional
digits are rounded half away from zero; values needing more than 18 digits
fail.  (The empty string is not a valid decimal literal in SQL Server, unlike
the integer case.) -/
def tryCastDec182 (s : String) : Option Int :=
  let sg := splitSign (trimSpaces s.data)
  let ipart := sg.2.takeWhile Char.isDigit
  let rest := sg.2.drop ipart.length
  let parsed : Option (List Char × List Char) :=
    match rest with
    | [] => if ipart.isEmpty then none else some (ipart, [])
    | '.' :: frac =>
      if allDigits frac && !(ipart.isEmpty && frac.isEmpty) then some (ipart, frac) else none
    | _ => none
  parsed.bind fun iq =>
    let frac := iq.2
    let f2 := digitsToNat ((frac ++ ['0', '0']).take 2)
    let lowDigits := frac.drop 2
    let roundUp : Nat := if 2 * digitsToNat lowDigits ≥ 10 ^ lowDigits.length then 1 else 0
    let centsNat := digitsToNat iq.1 * 100 + f2 + roundUp
    if centsNat ≤ 10 ^ 18 - 1 then some (sg.1 * centsNat) else none

/-- SQL `SUM` over a group: ignores `NULL`s and is `NULL` when no non-null
value remains. -/
def sqlSumInt (l : List (Option Int)) : Option Int :=
  let vs := l.filterMap id
  if vs.isEmpty then none else some vs.sum

/-- `LTRIM(RTRIM(s))`. -/
def sqlTrim (s : String) : String := String.mk (trimSpaces s.data)

/-- The columns of `vendor_invoice` the aggregation query reads (the staging
table is all-text). -/
structure VendorInvoiceRow where
  VendorNumber : String
  Freight : String
deriving DecidableEq

/-- The columns of `purchases` the aggregation query reads. -/
structure PurchasesRow where
  VendorNumber : String
  VendorName : String
  Brand : String
  Description : String
  PurchasePrice : String
  Quantity : String
  Dollars : String
deriving DecidableEq

/-- The columns of `purchase_prices` the aggregation query reads. -/
structure PurchasePricesRow where
  Brand : String
  Price : String
  Volume : String
deriving DecidableEq

/-- The columns of `sales` the aggregation query reads. -/
structure SalesRow where
  VendorNo : String
  Brand : String
  SalesQuantity : String
  SalesDollars : String
  SalesPrice : String
  ExciseTax : String
deriving DecidableEq

/-- One row of the `FreightSummary` CTE.  Decimal sums are in cents. -/
structure FreightSummaryRow where
  VendorNumber : Option Int
  FreightCost : Option Int
deriving DecidableEq

/-- One row of the `SalesSummary` CTE.  Decimal sums are in cents. -/
structure SalesSummaryRow where
  VendorNumber : Option Int
  Brand : Option Int
  TotalSalesQuantity : Option Int
  TotalSalesDollars : Option Int
  TotalSalesPrice : Option Int
  TotalExciseTax : Option Int
deriving DecidableEq

/-- One row of the `PurchaseSummary` CTE.  `PurchasePrice`, `ActualPrice` and
`TotalPurchaseDollars` are decimal values in cents. -/
structure PurchaseSummaryRow where
  VendorNumber : Option Int
  VendorName : String
  Brand : Option Int
  Description : String
  PurchasePrice : Option Int
  ActualPrice : Option Int
  Volume : Option Int
  TotalPurchaseQuantity : Option Int
  TotalPurchaseDollars : Option Int
deriving DecidableEq

/-- The `WHERE TRY_CAST(VendorNumber AS BIGINT) IS NOT NULL` filter of
`FreightSummary`. -/
def freightRowOk (r : VendorInvoiceRow) : Bool := (tryCastBigint r.VendorNumber).isSome

/-- Grouping and aggregation of `FreightSummary` over the filtered rows. -/
def freightGroups (rows : List VendorInvoiceRow) : List FreightSummaryRow :=
  ((rows.map fun r => tryCastBigint r.VendorNumber).dedup).map fun k =>
    ⟨k, sqlSumInt ((rows.filter fun r => decide (tryCastBigint r.VendorNumber = k)).map
        fun r => tryCastDec182 r.Freight)⟩

/-- The `FreightSummary` CTE: freight cost summed by safely-cast vendor
number, rows with an uncastable vendor number excluded. -/
def FreightSummary (t : List VendorInvoiceRow) : List FreightSummaryRow :=
  freightGroups (t.filter freightRowOk)

/-- The `WHERE` filter of `SalesSummary`: both keys must cast. -/
def salesRowOk (r : SalesRow) : Bool :=
  (tryCastBigint r.VendorNo).isSome && (tryCastBigint r.Brand).isSome

/-- Grouping and aggregation of `SalesSummary` over the filtered rows. -/
def salesGroups (rows : List SalesRow) : List SalesSummaryRow :=
  ((rows.map fun r => (tryCastBigint r.VendorNo, tryCastBigint r.Brand)).dedup).map fun k =>
    let grp := rows.filter fun r =>
      decide ((tryCastBigint r.VendorNo, tryCastBigint r.Brand) = k)
    ⟨k.1, k.2,
      sqlSumInt (grp.map fun r => tryCastBigint r.SalesQuantity),
      sqlSumInt (grp.map fun r => tryCastDec182 r.SalesDollars),
      sqlSumInt (grp.map fun r => tryCastDec182 r.SalesPrice),
      sqlSumInt (grp.map fun r => tryCastDec182 r.ExciseTax)⟩

/-- The `SalesSummary` CTE: sales figures summed by (vendor, brand), rows
whose vendor or brand fails coercion excluded. -/
def SalesSummary (t : List SalesRow) : List SalesSummaryRow :=
  salesGroups (t.filter salesRowOk)

/-- The `JOIN purchase_prices pp ON p.Brand = pp.Brand` (raw text equality on
the untyped staging columns). -/
def purchaseJoin (p : List PurchasesRow) (pp : List PurchasePricesRow) :
    List (PurchasesRow × PurchasePricesRow) :=
  p.flatMap fun r => (pp.filter fun q => decide (q.Brand = r.Brand)).map fun q => (r, q)

/-- The `WHERE` filter of `PurchaseSummary`: vendor and brand must cast and
the purchase price must cast to a value strictly above zero. -/
def purchaseRowOk (r : PurchasesRow) : Bool :=
  (tryCastBigint r.VendorNumber).isSome && (tryCastBigint r.Brand).isSome &&
    (match tryCastDec182 r.PurchasePrice with
     | some c => decide (0 < c)
     | none => false)

/-- The `GROUP BY` key of `PurchaseSummary` (the volume is grouped on its raw
text, as in the query). -/
structure PurchaseKey where
  vendor : Option Int
  name : String
  brand : Option Int
  descr : String
  price : Option Int
  actualPrice : Option Int
  volumeRaw : String
deriving DecidableEq

/-- The grouping key of one joined purchases row. -/
def purchaseKeyOf (rq : PurchasesRow × PurchasePricesRow) : PurchaseKey :=
  ⟨tryCastBigint rq.1.VendorNumber, sqlTrim rq.1.VendorName, tryCastBigint rq.1.Brand,
    rq.1.Description, tryCastDec182 rq.1.PurchasePrice, tryCastDec182 rq.2.Price,
    rq.2.Volume⟩

/-- Grouping and aggregation of `PurchaseSummary` over the filtered joined
rows. -/
def purchaseGroups (rows : List (PurchasesRow × PurchasePricesRow)) :
    List PurchaseSummaryRow :=
  ((rows.map purchaseKeyOf).dedup).map fun k =>
    let grp := rows.filter fun rq => decide (purchaseKeyOf rq = k)
    ⟨k.vendor, k.name, k.brand, k.descr, k.price, k.actualPrice,
      tryCastBigint k.volumeRaw,
      sqlSumInt (grp.map fun rq => tryCastBigint rq.1.Quantity),
      sqlSumInt (grp.map fun rq => tryCastDec182 rq.1.Dollars)⟩

/-- The `PurchaseSummary` CTE: purchases joined to `purchase_prices` on the
raw brand text, filtered, grouped and summed. -/
def PurchaseSummary (p : List PurchasesRow) (pp : List PurchasePricesRow) :
    List PurchaseSummaryRow :=
  purchaseGroups ((purchaseJoin p pp).filter fun rq => purchaseRowOk rq.1)

/-- SQL equality on possibly-null join keys: `NULL` matches nothing. -/
def sqlEqKey (a b : Option Int) : Bool :=
  match a, b with
  | some x, some y => decide (x = y)
  | _, _ => false

/-- `LEFT JOIN SalesSummary ss ON ps.VendorNumber = ss.VendorNumber AND
ps.Brand = ss.Brand`: every left row survives; with no match the right side
is null. -/
def leftJoinSales (ps : List PurchaseSummaryRow) (ss : List SalesSummaryRow) :
    List (PurchaseSummaryRow × Option SalesSummaryRow) :=
  ps.flatMap fun p =>
    let ms := ss.filter fun s0 =>
      sqlEqKey p.VendorNumber s0.VendorNumber && sqlEqKey p.Brand s0.Brand
    if ms.isEmpty then [(p, none)] else ms.map fun s0 => (p, some s0)

/-- `LEFT JOIN FreightSummary fs ON ps.VendorNumber = fs.VendorNumber`. -/
def leftJoinFreight (l : List (PurchaseSummaryRow × Option SalesSummaryRow))
    (fs : List FreightSummaryRow) :
    List (PurchaseSummaryRow × Option SalesSummaryRow × Option FreightSummaryRow) :=
  l.flatMap fun pr =>
    let ms := fs.filter fun f0 => sqlEqKey pr.1.VendorNumber f0.VendorNumber
    if ms.isEmpty then [(pr.1, pr.2, none)] else ms.map fun f0 => (pr.1, pr.2, some f0)

/-- One input of the final `SELECT`: a purchase-summary row with its (at most
one) matching sales-summary and freight-summary rows. -/
abbrev JoinTriple :=
  PurchaseSummaryRow × Option SalesSummaryRow × Option FreightSummaryRow

/-- The joined row set the final `SELECT` iterates over. -/
def joinedRows (p : List PurchasesRow) (pp : List PurchasePricesRow)
    (s : List SalesRow) (fi : List VendorInvoiceRow) : List JoinTriple :=
  leftJoinFreight (leftJoinSales (PurchaseSummary p pp) (SalesSummary s)) (FreightSummary fi)

/-- Interpretation of a cents-scaled `DECIMAL(18,2)` value as a rational. -/
def centToRat (c : Int) : ℚ := (c : ℚ) / 100

/-- Nullable SQL multiplication. -/
def mulN (a b : Option ℚ) : Option ℚ :=
  match a, b with
  | some x, some y => some (x * y)
  | _, _ => none

/-- Nullable SQL division, total version: a null operand gives null; the
zero-divisor case (a run-time error in SQL, proved unreachable here) is
mapped to null. -/
def divN (a b : Option ℚ) : Option ℚ :=
  match a, b with
  | some x, some y => if y = 0 then none else some (x / y)
  | _, _ => none

/-- SQL division with its run-time divide-by-zero error: a null operand gives
null, a zero non-null divisor raises. -/
inductive SqlDivErr where
  | divByZero
deriving DecidableEq

/-- Except-valued SQL division (faithful to the engine's error behaviour). -/
def divE (a b : Option ℚ) : Except SqlDivErr (Option ℚ) :=
  match a, b with
  | some x, some y => if y = 0 then .error SqlDivErr.divByZero else .ok (some (x / y))
  | _, _ => .ok none

/-- One output row of the aggregation query.  Decimal columns that stay exact
(`DECIMAL(18,2)` sums, differences and `COALESCE`s) are cents-scaled
integers; the computed ratios are rationals.  The column the query names
`SalesToPurchaseRatio` is the field `salesToPurchase`. -/
structure FinalRow where
  VendorNumber : Option Int
  VendorName : String
  Brand : Option Int
  Description : String
  PurchasePrice : Option Int
  ActualPrice : Option Int
  Volume : Option Int
  TotalPurchaseQuantity : Option Int
  TotalPurchaseDollars : Option Int
  TotalSalesQuantity : Int
  TotalSalesDollars : Int
  TotalSalesPrice : Int
  TotalExciseTax : Int
  FreightCost : Int
  GrossProfit : Option Int
  ProfitMargin : Option ℚ
  StockTurnover : Option ℚ
  salesToPurchase : Option ℚ

/-- The `ProfitMargin` expression of the query, in cents:
`CASE WHEN COALESCE(ss.TotalSalesDollars,0) = 0 THEN 0 ELSE
(COALESCE(ss.TotalSalesDollars,0) - ps.TotalPurchaseDollars) /
COALESCE(ss.TotalSalesDollars,1) * 100 END` (the literal `1` is one dollar,
i.e. 100 cents). -/
def profitMarginExpr (sd pd : Option Int) : Option ℚ :=
  if sd.getD 0 = 0 then some 0
  else
    mulN (divN ((pd.map fun c => sd.getD 0 - c).map centToRat)
        (some (centToRat (sd.getD 100))))
      (some 100)

/-- Except-valued `ProfitMargin`, with SQL's real divide-by-zero error. -/
def profitMarginExprE (sd pd : Option Int) : Except SqlDivErr (Option ℚ) :=
  if sd.getD 0 = 0 then .ok (some 0)
  else
    (divE ((pd.map fun c => sd.getD 0 - c).map centToRat)
        (some (centToRat (sd.getD 100)))).map
      fun q => mulN q (some 100)

/-- The `StockTurnover` expression of the query:
`CASE WHEN ps.TotalPurchaseQuantity = 0 THEN 0 ELSE
COALESCE(ss.TotalSalesQuantity,0) * 1.0 / ps.TotalPurchaseQuantity END`
(total version). -/
def stockTurnoverExpr (tpq : Option Int) (sq : Int) : Option ℚ :=
  if tpq = some 0 then some 0
  else divN (some (sq : ℚ)) (tpq.map fun q => (q : ℚ))

/-- Except-valued `StockTurnover`. -/
def stockTurnoverExprE (tpq : Option Int) (sq : Int) : Except SqlDivErr (Option ℚ) :=
  if tpq = some 0 then .ok (some 0)
  else divE (some (sq : ℚ)) (tpq.map fun q => (q : ℚ))

/-- The `SalesToPurchaseRatio` expression of the query, on cents values:
`CASE WHEN ps.TotalPurchaseDollars = 0 THEN 0 ELSE
COALESCE(ss.TotalSalesDollars,0) / ps.TotalPurchaseDollars END`
(total version). -/
def ratioExpr (tpd : Option Int) (sd : Int) : Option ℚ :=
  if tpd = some 0 then some 0
  else divN (some (centToRat sd)) (tpd.map centToRat)

/-- Except-valued `SalesToPurchaseRatio`. -/
def ratioExprE (tpd : Option Int) (sd : Int) : Except SqlDivErr (Option ℚ) :=
  if tpd = some 0 then .ok (some 0)
  else divE (some (centToRat sd)) (tpd.map centToRat)

/-- The final `SELECT` projection for one joined triple (total version). -/
def computeFinalRow (t : JoinTriple) : FinalRow :=
  let sdC : Int := (t.2.1.bind fun s0 => s0.TotalSalesDollars).getD 0
  let sqC : Int := (t.2.1.bind fun s0 => s0.TotalSalesQuantity).getD 0
  ⟨t.1.VendorNumber, t.1.VendorName, t.1.Brand, t.1.Description, t.1.PurchasePrice,
    t.1.ActualPrice, t.1.Volume, t.1.TotalPurchaseQuantity, t.1.TotalPurchaseDollars,
    sqC, sdC,
    (t.2.1.bind fun s0 => s0.TotalSalesPrice).getD 0,
    (t.2.1.bind fun s0 => s0.TotalExciseTax).getD 0,
    (t.2.2.bind fun f0 => f0.FreightCost).getD 0,
    t.1.TotalPurchaseDollars.map fun c => sdC - c,
    profitMarginExpr (t.2.1.bind fun s0 => s0.TotalSalesDollars) t.1.TotalPurchaseDollars,
    stockTurnoverExpr t.1.TotalPurchaseQuantity sqC,
    ratioExpr t.1.TotalPurchaseDollars sdC⟩

/-- The final `SELECT` projection, Except-valued: the same expressions with
SQL's divide-by-zero error made explicit. -/
def computeFinalRowE (t : JoinTriple) : Except SqlDivErr FinalRow :=
  let sdC : Int := (t.2.1.bind fun s0 => s0.TotalSalesDollars).getD 0
  let sqC : Int := (t.2.1.bind fun s0 => s0.TotalSalesQuantity).getD 0
  (profitMarginExprE (t.2.1.bind fun s0 => s0.TotalSalesDollars)
      t.1.TotalPurchaseDollars).bind fun pm =>
    (stockTurnoverExprE t.1.TotalPurchaseQuantity sqC).bind fun st =>
      (ratioExprE t.1.TotalPurchaseDollars sdC).bind fun sp =>
        .ok ⟨t.1.VendorNumber, t.1.VendorName, t.1.Brand, t.1.Description, t.1.PurchasePrice,
          t.1.ActualPrice, t.1.Volume, t.1.TotalPurchaseQuantity, t.1.TotalPurchaseDollars,
          sqC, sdC,
          (t.2.1.bind fun s0 => s0.TotalSalesPrice).getD 0,
          (t.2.1.bind fun s0 => s0.TotalExciseTax).getD 0,
          (t.2.2.bind fun f0 => f0.FreightCost).getD 0,
          t.1.TotalPurchaseDollars.map fun c => sdC - c, pm, st, sp⟩

/-- The unsorted result set of the final `SELECT`. -/
def finalSelectRows (p : List PurchasesRow) (pp : List PurchasePricesRow)
    (s : List SalesRow) (fi : List VendorInvoiceRow) : List FinalRow :=
  (joinedRows p pp s fi).map computeFinalRow

/-- `ORDER BY ps.TotalPurchaseDollars DESC` admissible-order test on the sort
key: SQL Server treats `NULL` as the lowest value, so in descending order
nulls come last. -/
def descLe (x y : Option Int) : Bool :=
  match x, y with
  | _, none => true
  | none, some _ => false
  | some a, some b => decide (b ≤ a)

/-- Row order of the final `ORDER BY`. -/
def descRel (a b : FinalRow) : Prop :=
  descLe a.TotalPurchaseDollars b.TotalPurchaseDollars = true

instance : DecidableRel descRel := fun a b => by unfold descRel; infer_instance

theorem descLe_total (x y : Option Int) : descLe x y = true ∨ descLe y x = true := by
  cases x with
  | none => cases y with
    | none => left; rfl
    | some b => right; rfl
  | some a => cases y with
    | none => left; rfl
    | some b =>
      simp only [descLe, decide_eq_true_eq]
      omega

theorem descLe_trans (x y z : Option Int) (h1 : descLe x y = true)
    (h2 : descLe y z = true) : descLe x z = true := by
  cases z with
  | none => cases x <;> rfl
  | some c =>
    cases y with
    | none => simp [descLe] at h2
    | some b =>
      cases x with
      | none => simp [descLe] at h1
      | some a =>
        simp only [descLe, decide_eq_true_eq] at h1 h2 ⊢
        omega

instance : IsTotal FinalRow descRel :=
  ⟨fun a b => descLe_total a.TotalPurchaseDollars b.TotalPurchaseDollars⟩

instance : IsTrans FinalRow descRel :=
  ⟨fun _ _ _ h1 h2 => descLe_trans _ _ _ h1 h2⟩

/-- The ordered result set of the aggregation query. -/
def finalQueryRows (p : List PurchasesRow) (pp : List PurchasePricesRow)
    (s : List SalesRow) (fi : List VendorInvoiceRow) : List FinalRow :=
  List.insertionSort descRel (finalSelectRows p pp s fi)

/-- The `df.fillna(0)` cleanup pass over one materialised row: every missing
value becomes 0; non-null fields are untouched. -/
def fillnaRow (r : FinalRow) : FinalRow :=
  ⟨some (r.VendorNumber.getD 0), r.VendorName, some (r.Brand.getD 0), r.Description,
    some (r.PurchasePrice.getD 0), some (r.ActualPrice.getD 0), some (r.Volume.getD 0),
    some (r.TotalPurchaseQuantity.getD 0), some (r.TotalPurchaseDollars.getD 0),
    r.TotalSalesQuantity, r.TotalSalesDollars, r.TotalSalesPrice, r.TotalExciseTax,
    r.FreightCost, some (r.GrossProfit.getD 0), some (r.ProfitMargin.getD 0),
    some (r.StockTurnover.getD 0), some (r.salesToPurchase.getD 0)⟩

/-- The materialised aggregation result: the ordered query output after the
`fillna(0)` cleanup, as it is bulk-inserted into `final_summary`. -/
def materializedRows (p : List PurchasesRow) (pp : List PurchasePricesRow)
    (s : List SalesRow) (fi : List VendorInvoiceRow) : List FinalRow :=
  (finalQueryRows p pp s fi).map fillnaRow

theorem filter_pair_nil {β γ : Type} (l : List γ) (r : β) (pred : β → Bool)
    (h : pred r = false) :
    ((l.map fun q => (r, q)).filter fun rq => pred rq.1) = [] := by
  induction l with
  | nil => rfl
  | cons q qs ih => simp [List.filter_cons, h, ih]

/-- C5: a staging row whose grouping/join key fails safe coercion (or, for
purchases, whose purchase price does not coerce to a value above zero) is
excluded from its intermediate aggregate: adding such a row to the staging
table changes no summary row and contributes to no sum. -/
theorem c5_key_coercion_excluded :
    (∀ (r : VendorInvoiceRow) (rows : List VendorInvoiceRow),
        tryCastBigint r.VendorNumber = none →
        FreightSummary (r :: rows) = FreightSummary rows) ∧
      (∀ (r : SalesRow) (rows : List SalesRow),
        tryCastBigint r.VendorNo = none ∨ tryCastBigint r.Brand = none →
        SalesSummary (r :: rows) = SalesSummary rows) ∧
      (∀ (r : PurchasesRow) (rows : List PurchasesRow) (pp : List PurchasePricesRow),
        (tryCastBigint r.VendorNumber = none ∨ tryCastBigint r.Brand = none ∨
          ∀ c, tryCastDec182 r.PurchasePrice = some c → c ≤ 0) →
        PurchaseSummary (r :: rows) pp = PurchaseSummary rows pp) := by
  refine ⟨?_, ?_, ?_⟩
  · intro r rows h
    have hok : freightRowOk r = false := by simp [freightRowOk, h]
    simp [FreightSummary, List.filter_cons, hok]
  · intro r rows h
    have hok : salesRowOk r = false := by
      rcases h with h | h <;> simp [salesRowOk, h]
    simp [SalesSummary, List.filter_cons, hok]
  · intro r rows pp h
    have hok : purchaseRowOk r = false := by
      unfold purchaseRowOk
      rcases h with h | h | h
      · simp [h]
      · simp [h]
      · cases hc : tryCastDec182 r.PurchasePrice with
        | none => simp
        | some c =>
          have hle := h c hc
          have hlt : ¬(0 : Int) < c := by omega
          simp [hlt]
    have hjoin : purchaseJoin (r :: rows) pp =
        ((pp.filter fun q => decide (q.Brand = r.Brand)).map fun q => (r, q)) ++
          purchaseJoin rows pp := by
      simp [purchaseJoin]
    rw [PurchaseSummary, hjoin, List.filter_append,
      filter_pair_nil _ _ _ hok, List.nil_append]
    rfl

/-- Concrete bad staging rows for the C5 witness. -/
def badFreightRow : VendorInvoiceRow := ⟨"abc", "1.0"⟩

/-- A sales row whose vendor key fails coercion. -/
def badSalesRow : SalesRow := ⟨"abc", "1", "1", "1.0", "1.0", "0.1"⟩

/-- A purchases row whose vendor key fails coercion. -/
def badPurchasesRow : PurchasesRow := ⟨"abc", "V", "1", "D", "2.00", "1", "2.00"⟩

/-- Witness for C5 at concrete uncoercible rows. -/
theorem c5_key_coercion_excluded_witness :
    FreightSummary [badFreightRow] = FreightSummary [] ∧
      SalesSummary [badSalesRow] = SalesSummary [] ∧
      PurchaseSummary [badPurchasesRow] [⟨"1", "3.00", "750"⟩] =
        PurchaseSummary [] [⟨"1", "3.00", "750"⟩] :=
  ⟨c5_key_coercion_excluded.1 badFreightRow [] (by decide),
    c5_key_coercion_excluded.2.1 badSalesRow [] (Or.inl (by decide)),
    c5_key_coercion_excluded.2.2 badPurchasesRow [] [⟨"1", "3.00", "750"⟩]
      (Or.inl (by decide))⟩

/-- Modelled from the spec: the plain guarded `ProfitMargin` formula, which
special-cases `salesDollars = 0` and otherwise divides by the 0-defaulted
`salesDollars` directly (no `COALESCE(...,1)` in the denominator). -/
def profitMarginPlain (sd pd : Option Int) : Option ℚ :=
  if sd.getD 0 = 0 then some 0
  else
    mulN (divN ((pd.map fun c => sd.getD 0 - c).map centToRat)
        (some (centToRat (sd.getD 0))))
      (some 100)

/-- C6: for every salesDollars (null included) and purchaseDollars, the
implemented `ProfitMargin` — which replaces a missing denominator by 1 via
`COALESCE` on top of the zero guard — equals the plain guarded formula that
divides by salesDollars directly; the extra `COALESCE`-to-1 changes no
output value. -/
theorem c6_coalesce_one_redundant (sd pd : Option Int) :
    profitMarginExpr sd pd = profitMarginPlain sd pd := by
  unfold profitMarginExpr profitMarginPlain
  by_cases h : sd.getD 0 = 0
  · simp [h]
  · cases sd with
    | none => simp at h
    | some s => simp [h]

theorem centToRat_eq_zero_iff (c : Int) : centToRat c = 0 ↔ c = 0 := by
  unfold centToRat
  constructor
  · intro h
    rcases div_eq_zero_iff.mp h with h1 | h1
    · exact Int.cast_eq_zero.mp h1
    · norm_num at h1
  · intro h
    rw [h]
    norm_num

theorem profitMarginExprE_ok (sd pd : Option Int) :
    profitMarginExprE sd pd = .ok (profitMarginExpr sd pd) := by
  unfold profitMarginExprE profitMarginExpr
  by_cases h : sd.getD 0 = 0
  · simp [h]
  · simp only [h, if_false]
    have hden : centToRat (sd.getD 100) ≠ 0 := by
      cases sd with
      | none => simp at h
      | some s =>
        simp only [Option.getD_some] at h ⊢
        rw [Ne, centToRat_eq_zero_iff]
        exact h
    cases pd with
    | none => simp [divE, divN, mulN, Except.map]
    | some x => simp [divE, divN, mulN, Except.map, hden]

theorem stockTurnoverExprE_ok (tpq : Option Int) (sq : Int) :
    stockTurnoverExprE tpq sq = .ok (stockTurnoverExpr tpq sq) := by
  unfold stockTurnoverExprE stockTurnoverExpr
  by_cases h : tpq = some 0
  · simp [h]
  · cases tpq with
    | none => simp [h, divE, divN]
    | some q =>
      have hq : q ≠ 0 := fun hc => h (by rw [hc])
      have hq2 : (q : ℚ) ≠ 0 := Int.cast_ne_zero.mpr hq
      simp [h, divE, divN, hq2]

theorem ratioExprE_ok (tpd : Option Int) (sd : Int) :
    ratioExprE tpd sd = .ok (ratioExpr tpd sd) := by
  unfold ratioExprE ratioExpr
  by_cases h : tpd = some 0
  · simp [h]
  · cases tpd with
    | none => simp [h, divE, divN]
    | some c =>
      have hc : c ≠ 0 := fun hzero => h (by rw [hzero])
      have hc2 : centToRat c ≠ 0 := by
        rw [Ne, centToRat_eq_zero_iff]
        exact hc
      simp [h, divE, divN, hc2]

theorem computeFinalRowE_ok (t : JoinTriple) :
    computeFinalRowE t = .ok (computeFinalRow t) := by
  unfold computeFinalRowE computeFinalRow
  simp only [profitMarginExprE_ok, stockTurnoverExprE_ok, ratioExprE_ok, Except.bind]

theorem centToRat_sub (a b : Int) : centToRat (a - b) = centToRat a - centToRat b := by
  unfold centToRat
  push_cast
  ring

theorem profitMarginExpr_formula (sd pd : Option Int) :
    profitMarginExpr sd pd =
      if sd.getD 0 = 0 then some 0
      else pd.map fun c =>
        (centToRat (sd.getD 0) - centToRat c) / centToRat (sd.getD 0) * 100 := by
  unfold profitMarginExpr
  by_cases h : sd.getD 0 = 0
  · simp [h]
  · simp only [h, if_false]
    cases sd with
    | none => simp at h
    | some s =>
      simp only [Option.getD_some] at h ⊢
      have hs : centToRat s ≠ 0 := by
        rw [Ne, centToRat_eq_zero_iff]
        exact h
      cases pd with
      | none => simp [divN, mulN]
      | some c => simp [divN, mulN, hs, centToRat_sub]

theorem stockTurnoverExpr_formula (tpq : Option Int) (sq : Int) :
    stockTurnoverExpr tpq sq =
      if tpq = some 0 then some 0 else tpq.map fun q => (sq : ℚ) / (q : ℚ) := by
  unfold stockTurnoverExpr
  by_cases h : tpq = some 0
  · simp [h]
  · cases tpq with
    | none => simp [h, divN]
    | some q =>
      have hq2 : (q : ℚ) ≠ 0 := Int.cast_ne_zero.mpr fun hc => h (by rw [hc])
      simp [h, divN, hq2]

theorem ratioExpr_formula (tpd : Option Int) (sd : Int) :
    ratioExpr tpd sd =
      if tpd = some 0 then some 0 else tpd.map fun c => centToRat sd / centToRat c := by
  unfold ratioExpr
  by_cases h : tpd = some 0
  · simp [h]
  · cases tpd with
    | none => simp [h, divN]
    | some c =>
      have hc2 : centToRat c ≠ 0 := by
        rw [Ne, centToRat_eq_zero_iff]
        exact fun hzero => h (by rw [hzero])
      simp [h, divN, hc2]

/-- C3: for every output row (an arbitrary joined triple), computed from the
0-defaulted sales figures: the query never hits a division error (the
Except-valued evaluation returns `ok`), GrossProfit is salesDollars minus
purchaseDollars, ProfitMargin is 0 when salesDollars is 0 and otherwise
(salesDollars − purchaseDollars) / salesDollars × 100, StockTurnover is 0
when purchaseQuantity is 0 and otherwise salesQuantity / purchaseQuantity
with real-valued division, and SalesToPurchaseRatio is 0 when
purchaseDollars is 0 and otherwise salesDollars / purchaseDollars; each zero
guard takes precedence over the division. -/
theorem c3_metric_formulas (t : JoinTriple) :
    computeFinalRowE t = .ok (computeFinalRow t) ∧
      (computeFinalRow t).GrossProfit =
        (t.1.TotalPurchaseDollars.map fun pd =>
          (t.2.1.bind fun s0 => s0.TotalSalesDollars).getD 0 - pd) ∧
      (computeFinalRow t).ProfitMargin =
        (if (t.2.1.bind fun s0 => s0.TotalSalesDollars).getD 0 = 0 then some 0
         else t.1.TotalPurchaseDollars.map fun pd =>
           (centToRat ((t.2.1.bind fun s0 => s0.TotalSalesDollars).getD 0) - centToRat pd) /
             centToRat ((t.2.1.bind fun s0 => s0.TotalSalesDollars).getD 0) * 100) ∧
      (computeFinalRow t).StockTurnover =
        (if t.1.TotalPurchaseQuantity = some 0 then some 0
         else t.1.TotalPurchaseQuantity.map fun q =>
           (((t.2.1.bind fun s0 => s0.TotalSalesQuantity).getD 0 : Int) : ℚ) / (q : ℚ)) ∧
      (computeFinalRow t).salesToPurchase =
        (if t.1.TotalPurchaseDollars = some 0 then some 0
         else t.1.TotalPurchaseDollars.map fun pd =>
           centToRat ((t.2.1.bind fun s0 => s0.TotalSalesDollars).getD 0) / centToRat pd) :=
  ⟨computeFinalRowE_ok t, rfl,
    profitMarginExpr_formula (t.2.1.bind fun s0 => s0.TotalSalesDollars)
      t.1.TotalPurchaseDollars,
    stockTurnoverExpr_formula t.1.TotalPurchaseQuantity
      ((t.2.1.bind fun s0 => s0.TotalSalesQuantity).getD 0),
    ratioExpr_formula t.1.TotalPurchaseDollars
      ((t.2.1.bind fun s0 => s0.TotalSalesDollars).getD 0)⟩

theorem list_len_le_one {β : Type} {l : List β} (h : l.length ≤ 1) :
    l = [] ∨ ∃ u, l = [u] := by
  match l with
  | [] => exact Or.inl rfl
  | [u] => exact Or.inr ⟨u, rfl⟩
  | a :: b :: t => simp at h

theorem length_filter_le_one_of_key {β γ : Type} [DecidableEq γ] (l : List β) (key : β → γ)
    (h : (l.map key).Nodup) (pred : β → Bool) (k : γ)
    (hpred : ∀ x, pred x = true → key x = k) :
    (l.filter pred).length ≤ 1 := by
  induction l with
  | nil => simp
  | cons x xs ih =>
    rw [List.map_cons, List.nodup_cons] at h
    rw [List.filter_cons]
    by_cases hx : pred x = true
    · simp only [hx, if_true]
      have hnil : xs.filter pred = [] := by
        rw [List.filter_eq_nil_iff]
        intro y hy hpy
        exact h.1 (List.mem_map.mpr ⟨y, hy, (hpred y hpy).trans (hpred x hx).symm⟩)
      rw [hnil]
      simp
    · simp only [hx, Bool.false_eq_true, if_false]
      exact ih h.2

theorem salesSummary_keys_nodup (s : List SalesRow) :
    ((SalesSummary s).map fun s0 => (s0.VendorNumber, s0.Brand)).Nodup := by
  unfold SalesSummary salesGroups
  rw [List.map_map]
  have hfun : ((fun s0 : SalesSummaryRow => (s0.VendorNumber, s0.Brand)) ∘
      fun k : Option Int × Option Int =>
        (⟨k.1, k.2,
          sqlSumInt (((s.filter salesRowOk).filter fun r =>
            decide ((tryCastBigint r.VendorNo, tryCastBigint r.Brand) = k)).map
              fun r => tryCastBigint r.SalesQuantity),
          sqlSumInt (((s.filter salesRowOk).filter fun r =>
            decide ((tryCastBigint r.VendorNo, tryCastBigint r.Brand) = k)).map
              fun r => tryCastDec182 r.SalesDollars),
          sqlSumInt (((s.filter salesRowOk).filter fun r =>
            decide ((tryCastBigint r.VendorNo, tryCastBigint r.Brand) = k)).map
              fun r => tryCastDec182 r.SalesPrice),
          sqlSumInt (((s.filter salesRowOk).filter fun r =>
            decide ((tryCastBigint r.VendorNo, tryCastBigint r.Brand) = k)).map
              fun r => tryCastDec182 r.ExciseTax)⟩ : SalesSummaryRow)) = id := by
    funext k
    rfl
  rw [hfun, List.map_id]
  exact List.nodup_dedup _

theorem freightSummary_keys_nodup (fi : List VendorInvoiceRow) :
    ((FreightSummary fi).map fun f0 => f0.VendorNumber).Nodup := by
  unfold FreightSummary freightGroups
  rw [List.map_map]
  have hfun : ((fun f0 : FreightSummaryRow => f0.VendorNumber) ∘
      fun k : Option Int =>
        (⟨k, sqlSumInt (((fi.filter freightRowOk).filter fun r =>
          decide (tryCastBigint r.VendorNumber = k)).map
            fun r => tryCastDec182 r.Freight)⟩ : FreightSummaryRow)) = id := by
    funext k
    rfl
  rw [hfun, List.map_id]
  exact List.nodup_dedup _

theorem leftJoinSales_eq (ps : List PurchaseSummaryRow) (ss : List SalesSummaryRow)
    (h : ((ss.map fun s0 => (s0.VendorNumber, s0.Brand))).Nodup) :
    leftJoinSales ps ss = ps.map fun p =>
      (p, (ss.filter fun s0 =>
        sqlEqKey p.VendorNumber s0.VendorNumber && sqlEqKey p.Brand s0.Brand).head?) := by
  unfold leftJoinSales
  induction ps with
  | nil => rfl
  | cons p ps ih =>
    rw [List.flatMap_cons, ih, List.map_cons]
    have hlen : (ss.filter fun s0 =>
        sqlEqKey p.VendorNumber s0.VendorNumber && sqlEqKey p.Brand s0.Brand).length ≤ 1 := by
      rcases p.VendorNumber with _ | a
      · have hnil : (ss.filter fun s0 =>
            sqlEqKey none s0.VendorNumber && sqlEqKey p.Brand s0.Brand) = [] := by
          rw [List.filter_eq_nil_iff]
          intro s0 _ hp
          simp [sqlEqKey] at hp
        rw [hnil]
        simp
      · rcases p.Brand with _ | b
        · have hnil : (ss.filter fun s0 =>
              sqlEqKey (some a) s0.VendorNumber && sqlEqKey none s0.Brand) = [] := by
            rw [List.filter_eq_nil_iff]
            intro s0 _ hp
            simp [sqlEqKey] at hp
          rw [hnil]
          simp
        · refine length_filter_le_one_of_key ss _ h _ (some a, some b) ?_
          intro s0 hp
          rw [Bool.and_eq_true] at hp
          obtain ⟨h1, h2⟩ := hp
          rcases hs1 : s0.VendorNumber with _ | y
          · rw [hs1] at h1
            simp [sqlEqKey] at h1
          · rcases hs2 : s0.Brand with _ | z
            · rw [hs2] at h2
              simp [sqlEqKey] at h2
            · rw [hs1] at h1
              rw [hs2] at h2
              simp only [sqlEqKey, decide_eq_true_eq] at h1 h2
              rw [h1, h2]
    rcases list_len_le_one hlen with h0 | ⟨u, h0⟩
    · rw [h0]
      simp
    · rw [h0]
      simp

theorem leftJoinFreight_eq (l : List (PurchaseSummaryRow × Option SalesSummaryRow))
    (fs : List FreightSummaryRow) (h : (fs.map fun f0 => f0.VendorNumber).Nodup) :
    leftJoinFreight l fs = l.map fun pr =>
      (pr.1, pr.2, (fs.filter fun f0 => sqlEqKey pr.1.VendorNumber f0.VendorNumber).head?) := by
  unfold leftJoinFreight
  induction l with
  | nil => rfl
  | cons pr l ih =>
    rw [List.flatMap_cons, ih, List.map_cons]
    have hlen : (fs.filter fun f0 => sqlEqKey pr.1.VendorNumber f0.VendorNumber).length ≤ 1 := by
      rcases pr.1.VendorNumber with _ | a
      · have hnil : (fs.filter fun f0 => sqlEqKey none f0.VendorNumber) = [] := by
          rw [List.filter_eq_nil_iff]
          intro f0 _ hp
          simp [sqlEqKey] at hp
        rw [hnil]
        simp
      · refine length_filter_le_one_of_key fs _ h _ (some a) ?_
        intro f0 hp
        rcases hs1 : f0.VendorNumber with _ | y
        · rw [hs1] at hp
          simp [sqlEqKey] at hp
        · rw [hs1] at hp
          simp only [sqlEqKey, decide_eq_true_eq] at hp
          rw [hp]
    rcases list_len_le_one hlen with h0 | ⟨u, h0⟩
    · rw [h0]
      simp
    · rw [h0]
      simp

theorem joinedRows_eq (p : List PurchasesRow) (pp : List PurchasePricesRow)
    (s : List SalesRow) (fi : List VendorInvoiceRow) :
    joinedRows p pp s fi = (PurchaseSummary p pp).map fun p0 =>
      (p0,
        ((SalesSummary s).filter fun s0 =>
          sqlEqKey p0.VendorNumber s0.VendorNumber && sqlEqKey p0.Brand s0.Brand).head?,
        ((FreightSummary fi).filter fun f0 =>
          sqlEqKey p0.VendorNumber f0.VendorNumber).head?) := by
  unfold joinedRows
  rw [leftJoinSales_eq _ _ (salesSummary_keys_nodup s),
    leftJoinFreight_eq _ _ (freightSummary_keys_nodup fi), List.map_map]
  rfl

/-- The nine purchase-side columns of an output row, as a purchase-summary
row. -/
def psProj (r : FinalRow) : PurchaseSummaryRow :=
  ⟨r.VendorNumber, r.VendorName, r.Brand, r.Description, r.PurchasePrice, r.ActualPrice,
    r.Volume, r.TotalPurchaseQuantity, r.TotalPurchaseDollars⟩

theorem computeFinalRow_sales_none (t : JoinTriple) (h : t.2.1 = none) :
    (computeFinalRow t).TotalSalesQuantity = 0 ∧ (computeFinalRow t).TotalSalesDollars = 0 ∧
      (computeFinalRow t).TotalSalesPrice = 0 ∧ (computeFinalRow t).TotalExciseTax = 0 := by
  unfold computeFinalRow
  rw [h]
  exact ⟨rfl, rfl, rfl, rfl⟩

theorem computeFinalRow_freight_none (t : JoinTriple) (h : t.2.2 = none) :
    (computeFinalRow t).FreightCost = 0 := by
  unfold computeFinalRow
  rw [h]
  rfl

/-- C4: in the final join, the multiset of purchase-side projections of the
output rows is exactly the purchases-by-vendor-brand intermediate — every
intermediate row appears exactly once, matched or not — and a row whose
sales (resp. freight) side is null, which happens precisely when no
sales-summary (resp. freight-summary) row matches its keys, carries 0 (never
null) in the four sales columns (resp. in FreightCost). -/
theorem c4_left_join_totality (p : List PurchasesRow) (pp : List PurchasePricesRow)
    (s : List SalesRow) (fi : List VendorInvoiceRow) :
    ((finalQueryRows p pp s fi).map psProj).Perm (PurchaseSummary p pp) ∧
      ∀ t ∈ joinedRows p pp s fi,
        (t.2.1 = none ↔ ∀ s0 ∈ SalesSummary s,
          ¬(sqlEqKey t.1.VendorNumber s0.VendorNumber = true ∧
            sqlEqKey t.1.Brand s0.Brand = true)) ∧
        (t.2.2 = none ↔ ∀ f0 ∈ FreightSummary fi,
          ¬sqlEqKey t.1.VendorNumber f0.VendorNumber = true) ∧
        (t.2.1 = none → (computeFinalRow t).TotalSalesQuantity = 0 ∧
          (computeFinalRow t).TotalSalesDollars = 0 ∧
          (computeFinalRow t).TotalSalesPrice = 0 ∧
          (computeFinalRow t).TotalExciseTax = 0) ∧
        (t.2.2 = none → (computeFinalRow t).FreightCost = 0) := by
  constructor
  · have h1 : (finalQueryRows p pp s fi).Perm (finalSelectRows p pp s fi) :=
      List.perm_insertionSort descRel _
    have h2 := h1.map psProj
    refine h2.trans ?_
    unfold finalSelectRows
    rw [List.map_map, joinedRows_eq, List.map_map]
    have hfun : ((psProj ∘ computeFinalRow) ∘ fun p0 : PurchaseSummaryRow =>
        (p0,
          ((SalesSummary s).filter fun s0 =>
            sqlEqKey p0.VendorNumber s0.VendorNumber && sqlEqKey p0.Brand s0.Brand).head?,
          ((FreightSummary fi).filter fun f0 =>
            sqlEqKey p0.VendorNumber f0.VendorNumber).head?)) = id := by
      funext p0
      rfl
    rw [hfun, List.map_id]
  · intro t ht
    rw [joinedRows_eq] at ht
    obtain ⟨p0, _, rfl⟩ := List.mem_map.mp ht
    refine ⟨?_, ?_, computeFinalRow_sales_none _, computeFinalRow_freight_none _⟩
    · rw [List.head?_eq_none_iff, List.filter_eq_nil_iff]
      constructor
      · intro hall s0 hs0
        have := hall s0 hs0
        rw [Bool.and_eq_true] at this
        exact fun hc => this ⟨hc.1, hc.2⟩
      · intro hall s0 hs0
        rw [Bool.and_eq_true]
        exact fun hc => hall s0 hs0 ⟨hc.1, hc.2⟩
    · rw [List.head?_eq_none_iff, List.filter_eq_nil_iff]

/-- Concrete purchases staging table for the aggregation witnesses. -/
def Pw : List PurchasesRow := [⟨"1", "V", "10", "D", "2.00", "5", "50.00"⟩]

/-- Concrete purchase-prices staging table for the aggregation witnesses. -/
def PPw : List PurchasePricesRow := [⟨"10", "3.00", "750"⟩]

/-- The single purchase-summary row produced by `Pw` and `PPw`. -/
def psW : PurchaseSummaryRow :=
  ⟨some 1, "V", some 10, "D", some 200, some 300, some 750, some 5, some 5000⟩

/-- Witness for C4: with one purchase row and no sales or freight rows, the
output's purchase projection is exactly the intermediate, and the unmatched
row's sales columns and freight cost are 0. -/
theorem c4_left_join_totality_witness :
    ((finalQueryRows Pw PPw [] []).map psProj).Perm (PurchaseSummary Pw PPw) ∧
      ((computeFinalRow (psW, none, none)).TotalSalesQuantity = 0 ∧
        (computeFinalRow (psW, none, none)).TotalSalesDollars = 0 ∧
        (computeFinalRow (psW, none, none)).TotalSalesPrice = 0 ∧
        (computeFinalRow (psW, none, none)).TotalExciseTax = 0) ∧
      (computeFinalRow (psW, none, none)).FreightCost = 0 :=
  ⟨(c4_left_join_totality Pw PPw [] []).1,
    ((c4_left_join_totality Pw PPw [] []).2 (psW, none, none) (by decide)).2.2.1 rfl,
    ((c4_left_join_totality Pw PPw [] []).2 (psW, none, none) (by decide)).2.2.2 rfl⟩

/-- C8 amended: the query result is sorted by `TotalPurchaseDollars`
descending with SQL's null-lowest order (nulls come last); consequently the
materialised rows (after `fillna(0)`) are non-increasing in
`TotalPurchaseDollars` whenever no row's total was null.  (A null total is
replaced by 0 in the cleanup, so a preceding negative total breaks the
non-increasing order; see the counterexample.) -/
theorem c8_ordering (p : List PurchasesRow) (pp : List PurchasePricesRow)
    (s : List SalesRow) (fi : List VendorInvoiceRow) :
    List.Sorted descRel (finalQueryRows p pp s fi) ∧
      ((∀ r ∈ finalSelectRows p pp s fi, r.TotalPurchaseDollars ≠ none) →
        List.Pairwise
          (fun a b : FinalRow =>
            b.TotalPurchaseDollars.getD 0 ≤ a.TotalPurchaseDollars.getD 0)
          (materializedRows p pp s fi)) := by
  constructor
  · exact List.sorted_insertionSort descRel _
  · intro hnn
    have hsorted : List.Pairwise descRel (finalQueryRows p pp s fi) :=
      List.sorted_insertionSort descRel _
    have hmem : ∀ r ∈ finalQueryRows p pp s fi, r.TotalPurchaseDollars ≠ none := by
      intro r hr
      exact hnn r ((List.perm_insertionSort descRel _).mem_iff.mp hr)
    have hpair : List.Pairwise
        (fun a b : FinalRow =>
          b.TotalPurchaseDollars.getD 0 ≤ a.TotalPurchaseDollars.getD 0)
        (finalQueryRows p pp s fi) := by
      refine hsorted.imp_of_mem ?_
      intro a b ha hb hab
      have hna := hmem a ha
      have hnb := hmem b hb
      rcases hxa : a.TotalPurchaseDollars with _ | x
      · exact absurd hxa hna
      · rcases hxb : b.TotalPurchaseDollars with _ | y
        · exact absurd hxb hnb
        · unfold descRel at hab
          rw [hxa, hxb] at hab
          simp only [descLe, decide_eq_true_eq] at hab
          simpa using hab
    unfold materializedRows
    refine hpair.map fillnaRow ?_
    intro a b hle
    exact hle

/-- Witness for C8 with all totals non-null: the materialised rows are
non-increasing. -/
theorem c8_ordering_witness :
    List.Sorted descRel (finalQueryRows Pw PPw [] []) ∧
      List.Pairwise
        (fun a b : FinalRow =>
          b.TotalPurchaseDollars.getD 0 ≤ a.TotalPurchaseDollars.getD 0)
        (materializedRows Pw PPw [] []) :=
  ⟨(c8_ordering Pw PPw [] []).1, (c8_ordering Pw PPw [] []).2 (by decide)⟩

/-- Purchases staging table for the C8 counterexample: one group with a
negative dollars total, one whose dollars never cast (null total). -/
def P8 : List PurchasesRow :=
  [⟨"1", "V", "1", "D", "2.00", "1", "-5"⟩, ⟨"2", "W", "2", "E", "2.00", "1", "x"⟩]

/-- Purchase-prices staging table for the C8 counterexample. -/
def PP8 : List PurchasePricesRow := [⟨"1", "1.00", "1"⟩, ⟨"2", "1.00", "1"⟩]

/-- C8 counterexample: a null `TotalPurchaseDollars` sorts last in the
descending order but becomes 0 in the materialised result, so after a
negative total the materialised rows read (−5, 0) — increasing, refuting
"every earlier row's TotalPurchaseDollars ≥ the later row's" for the
materialised aggregation result. -/
theorem c8_ordering_counterexample :
    ((materializedRows P8 PP8 [] []).map fun r => r.TotalPurchaseDollars) =
        [some (-500), some 0] ∧
      centToRat (-500) = -5 ∧ ¬((-500 : Int) ≥ 0) := by
  refine ⟨by decide, ?_, by decide⟩
  unfold centToRat
  norm_num
